import Mathlib

/-!
Verification of the `wp-parse-api` crate (files `src/lib.rs`, `src/error.rs`)
against its design specification.

Modelling conventions (shallow embedding):
* A Rust `String` is modelled by its sequence of Unicode scalar values
  (`List Nat`), together with the identity of its heap allocation (`Nat` id).
* `bytes::Bytes` and `Arc<Vec<u8>>` handles are modelled as a pair of an
  allocation id and the (immutable) byte contents (`List Nat`, each < 256 in
  intended use; the operations never depend on that bound).
* Allocation identity makes aliasing observable: an operation returns a handle
  that aliases its input exactly when the two ids coincide.  Operations that
  allocate receive a `fresh` id with the hypothesis that it differs from the
  ids already in play; `Arc::try_unwrap` consults the strong count `rc` of the
  shared allocation at the moment of the call.
* Machine integers: lengths and codepoints are `Nat`; the error code is `Int`
  (Rust `i32`, value 500, far from overflow).
-/

namespace WpParse

/-- Character codes of a Lean string literal; used to write the Rust string
literals of the source (`List Nat` of Unicode scalar values models `String`
contents). -/
def rstr (s : String) : List Nat :=
  s.data.map Char.toNat

/-- UTF-8 encoding of one Unicode scalar value (the byte representation Rust
`String` stores, and the encoder corresponding to `str::as_bytes`). -/
def utf8EncodeChar (c : Nat) : List Nat :=
  if c < 0x80 then [c]
  else if c < 0x800 then [0xC0 + c / 64, 0x80 + c % 64]
  else if c < 0x10000 then [0xE0 + c / 4096, 0x80 + c / 64 % 64, 0x80 + c % 64]
  else [0xF0 + c / 262144, 0x80 + c / 4096 % 64, 0x80 + c / 64 % 64, 0x80 + c % 64]

/-- UTF-8 encoding of a scalar-value sequence: the byte view `String::as_bytes`
returns for the string with those characters. -/
def utf8Encode (cs : List Nat) : List Nat :=
  (cs.map utf8EncodeChar).flatten

/-- A UTF-8 continuation byte (`0x80..=0xBF`), as in Rust's
`core::str` validation. -/
abbrev isCont (b : Nat) : Prop := 0x80 ≤ b ∧ b < 0xC0

/-- Constraint Rust's UTF-8 validation places on the second byte of a
three-byte sequence with leading byte `b0`: `0xE0` requires `0xA0..=0xBF`
(no overlong), `0xED` requires `0x80..=0x9F` (no surrogates), otherwise a
plain continuation byte. -/
abbrev cont3 (b0 b1 : Nat) : Prop :=
  isCont b1 ∧ (b0 = 0xE0 → 0xA0 ≤ b1) ∧ (b0 = 0xED → b1 < 0xA0)

/-- Constraint on the second byte of a four-byte sequence with leading byte
`b0`: `0xF0` requires `0x90..=0xBF` (no overlong), `0xF4` requires
`0x80..=0x8F` (no codepoints above U+10FFFF). -/
abbrev cont4 (b0 b1 : Nat) : Prop :=
  isCont b1 ∧ (b0 = 0xF0 → 0x90 ≤ b1) ∧ (b0 = 0xF4 → b1 < 0x90)

/-- Decode one UTF-8 scalar from the front of a byte sequence, following the
acceptance table of Rust's `core::str::from_utf8` (rejecting overlong forms,
surrogates and codepoints above U+10FFFF).  Returns the scalar value and the
number of bytes consumed, or `none` at an invalid or incomplete sequence. -/
def utf8DecodeOne : List Nat → Option (Nat × Nat)
  | [] => none
  | b0 :: rest =>
    if b0 < 0x80 then some (b0, 1)
    else if b0 < 0xC2 then none
    else if b0 < 0xE0 then
      match rest with
      | b1 :: _ =>
        if isCont b1 then some ((b0 - 0xC0) * 64 + (b1 - 0x80), 2) else none
      | [] => none
    else if b0 < 0xF0 then
      match rest with
      | b1 :: b2 :: _ =>
        if cont3 b0 b1 ∧ isCont b2 then
          some ((b0 - 0xE0) * 4096 + (b1 - 0x80) * 64 + (b2 - 0x80), 3)
        else none
      | _ => none
    else if b0 < 0xF5 then
      match rest with
      | b1 :: b2 :: b3 :: _ =>
        if cont4 b0 b1 ∧ isCont b2 ∧ isCont b3 then
          some ((b0 - 0xF0) * 262144 + (b1 - 0x80) * 4096
                  + (b2 - 0x80) * 64 + (b3 - 0x80), 4)
        else none
      | _ => none
    else none

/-- Number of bytes `String::from_utf8_lossy` skips for one invalid sequence:
the length of the maximal valid prefix of an encoded character (Rust's
`Utf8Error::error_len`, or the whole incomplete tail at end of input), never
zero. -/
def invalidSkip : List Nat → Nat
  | [] => 1
  | b0 :: rest =>
    if b0 < 0xE0 then 1
    else if b0 < 0xF0 then
      match rest with
      | b1 :: _ => if cont3 b0 b1 then 2 else 1
      | [] => 1
    else if b0 < 0xF5 then
      match rest with
      | b1 :: b2 :: _ =>
        if cont4 b0 b1 then (if isCont b2 then 3 else 2) else 1
      | [b1] => if cont4 b0 b1 then 2 else 1
      | [] => 1
    else 1

/-- Fuelled lossy UTF-8 decoding (`String::from_utf8_lossy`): decode scalars
one at a time, substituting U+FFFD for each maximal invalid subpart.  The fuel
is only a structural-recursion bound; `lossyCodes` instantiates it with the
input length, which suffices because each step consumes at least one byte. -/
def lossyAux : Nat → List Nat → List Nat
  | 0, _ => []
  | _ + 1, [] => []
  | fuel + 1, b0 :: rest =>
    match utf8DecodeOne (b0 :: rest) with
    | some (c, n) => c :: lossyAux fuel ((b0 :: rest).drop n)
    | none => 0xFFFD :: lossyAux fuel ((b0 :: rest).drop (invalidSkip (b0 :: rest)))

/-- Character sequence of `String::from_utf8_lossy` applied to a byte list. -/
def lossyCodes (l : List Nat) : List Nat :=
  lossyAux l.length l

/-- Fuelled UTF-8 validity check mirroring `lossyAux`: valid exactly when
decoding never hits an invalid sequence. -/
def validAux : Nat → List Nat → Bool
  | 0, l => l.isEmpty
  | _ + 1, [] => true
  | fuel + 1, b0 :: rest =>
    match utf8DecodeOne (b0 :: rest) with
    | some (_, n) => validAux fuel ((b0 :: rest).drop n)
    | none => false

/-- Whether a byte list is valid UTF-8 (acceptance of
`core::str::from_utf8`). -/
def validUtf8 (l : List Nat) : Bool :=
  validAux l.length l

/-- A Rust `String` value: its character (Unicode scalar) sequence together
with the identity of its heap buffer.  Its byte view is `utf8Encode chars`. -/
structure StrH where
  id : Nat
  chars : List Nat
  deriving DecidableEq

/-- A `bytes::Bytes` handle: allocation id of the backing storage plus the
immutable byte contents.  `Bytes::clone` copies the handle (same id), not the
data. -/
structure BytesH where
  id : Nat
  data : List Nat
  deriving DecidableEq

/-- An `Arc<Vec<u8>>` handle: allocation id of the shared vector plus its byte
contents. -/
structure ArcH where
  id : Nat
  data : List Nat
  deriving DecidableEq

/-- An `Arc<[u8]>` handle (the pre-0.4.6 shared representation accepted by
`from_arc_slice`). -/
structure ArcSliceH where
  id : Nat
  data : List Nat
  deriving DecidableEq

/-- The `RawData` buffer enum of `src/lib.rs`: `String(String)`,
`Bytes(Bytes)`, `ArcBytes(Arc<Vec<u8>>)`. -/
inductive RawData where
  | str (s : StrH)
  | bytes (b : BytesH)
  | arcBytes (a : ArcH)
  deriving DecidableEq

/-- Allocation id of the storage a `RawData` value holds. -/
def RawData.allocId : RawData → Nat
  | .str s => s.id
  | .bytes b => b.id
  | .arcBytes a => a.id

/-- `RawData::from_string` (the `Into<String>` conversion has already
produced the string). -/
def RawData.fromString (s : StrH) : RawData :=
  .str s

/-- `RawData::from_arc_bytes`: wraps the given shared handle, no copy. -/
def RawData.fromArcBytes (a : ArcH) : RawData :=
  .arcBytes a

/-- `RawData::from_arc_slice`: copies the slice into a new vector behind a new
`Arc` (`Arc::new(data.as_ref().to_vec())`); `fresh` is the id of that new
allocation. -/
def RawData.fromArcSlice (d : ArcSliceH) (fresh : Nat) : RawData :=
  .arcBytes ⟨fresh, d.data⟩

/-- `RawData::as_bytes`: the borrowed byte view, for each variant. -/
def RawData.asBytes : RawData → List Nat
  | .str s => utf8Encode s.chars
  | .bytes b => b.data
  | .arcBytes a => a.data

/-- `RawData::to_bytes` (non-consuming): `String` and `ArcBytes` go through
`Bytes::copy_from_slice` (a new allocation, id `fresh`); the `Bytes` branch is
`b.clone()`, which returns a handle to the same allocation. -/
def RawData.toBytes : RawData → Nat → BytesH
  | .str s, fresh => ⟨fresh, utf8Encode s.chars⟩
  | .bytes b, _ => b
  | .arcBytes a, fresh => ⟨fresh, a.data⟩

/-- `RawData::into_bytes` (consuming): `Bytes::from(String)` and the `Bytes`
branch reuse the existing allocation; the `ArcBytes` branch runs
`Arc::try_unwrap`, which succeeds exactly when the strong count `rc` of the
shared allocation is 1 at the moment of the call — on success the vector is
repurposed (same id), otherwise `Bytes::copy_from_slice` allocates `fresh`. -/
def RawData.intoBytes : RawData → Nat → Nat → BytesH
  | .str s, _, _ => ⟨s.id, utf8Encode s.chars⟩
  | .bytes b, _, _ => b
  | .arcBytes a, rc, fresh => if rc = 1 then ⟨a.id, a.data⟩ else ⟨fresh, a.data⟩

/-- `RawData::is_zero_copy`: `matches!(self, RawData::ArcBytes(_))`. -/
def RawData.isZeroCopy : RawData → Bool
  | .arcBytes _ => true
  | _ => false

/-- `RawData::len`: `self.as_bytes().len()`. -/
def RawData.len (d : RawData) : Nat :=
  d.asBytes.length

/-- `RawData::is_empty`, written per-variant as in the source
(`String::is_empty` tests byte length, `Bytes::is_empty`,
`Vec::is_empty`). -/
def RawData.isEmpty : RawData → Bool
  | .str s => (utf8Encode s.chars).isEmpty
  | .bytes b => b.data.isEmpty
  | .arcBytes a => a.data.isEmpty

/-- Character sequence written by `impl Display for RawData`: the `String`
branch is `f.write_str(value)`, the byte-backed branches write
`String::from_utf8_lossy` of their contents. -/
def RawData.display : RawData → List Nat
  | .str s => s.chars
  | .bytes b => lossyCodes b.data
  | .arcBytes a => lossyCodes a.data

/-- Escape one character the way Rust's `Debug` formatting of a string does
for the characters that can occur here (quote, backslash, newline, carriage
return, tab, NUL; other printable characters pass through — the `\u` forms
for the remaining control characters are not distinguished by any claim). -/
def escapeDebugChar (c : Nat) : List Nat :=
  if c = 0x22 then [0x5C, 0x22]
  else if c = 0x5C then [0x5C, 0x5C]
  else if c = 10 then [0x5C, 0x6E]
  else if c = 13 then [0x5C, 0x72]
  else if c = 9 then [0x5C, 0x74]
  else if c = 0 then [0x5C, 0x30]
  else [c]

/-- Rust `Debug` rendering of a string's contents (between the quotes). -/
def escapeDebugStr (s : List Nat) : List Nat :=
  (s.map escapeDebugChar).flatten

/-- Rust `Debug` rendering of an `Option<String>`: `None`, or
`Some("…")` with escaped contents. -/
def debugOptStr : Option (List Nat) → List Nat
  | none => rstr "None"
  | some s => rstr "Some(" ++ [0x22] ++ escapeDebugStr s ++ [0x22] ++ rstr ")"

/-- The layer-1 error enum `DataErrKind` of `src/error.rs`. -/
inductive DataErrKind where
  | formatError (msg : List Nat) (detail : Option (List Nat))
  | notComplete
  | unParse (msg : List Nat)
  | lessData
  | emptyData
  | lessStc (name : List Nat)
  | lessDef (name : List Nat)
  deriving DecidableEq

/-- `Display` of `DataErrKind`, from the `thiserror` format strings:
`"format error : {0}\n{1:?} "`, `"not complete"`, `"no parse data: {0}"`,
`"less data"`, `"empty data"`, `"struct less : {0}"`, `"define less : {0}"`. -/
def DataErrKind.render : DataErrKind → List Nat
  | .formatError m d => rstr "format error : " ++ m ++ [10] ++ debugOptStr d ++ rstr " "
  | .notComplete => rstr "not complete"
  | .unParse m => rstr "no parse data: " ++ m
  | .lessData => rstr "less data"
  | .emptyData => rstr "empty data"
  | .lessStc n => rstr "struct less : " ++ n
  | .lessDef n => rstr "define less : " ++ n

/-- Modelled from the spec: the open "systemic reason" enumeration `UvsReason`
supplied by the lower-level error-composition library (`orion_error`), which
is not part of this repository.  Only the data-fault constructor produced by
`UvsFrom::from_data` is relevant here; a catch-all constructor keeps the
enumeration open as the spec describes. -/
inductive UvsReason where
  | dataError
  | other (msg : List Nat)
  deriving DecidableEq

/-- Modelled from the spec: rendering of the systemic reason (the exact text
comes from the external library; no claim depends on it). -/
def UvsReason.render : UvsReason → List Nat
  | .dataError => rstr "data error"
  | .other m => m

/-- The layer-2 classification enum `WparseReason` of `src/error.rs`:
`Plugin(String)`, `NotMatch`, `LineProc(String)`, `Uvs(UvsReason)`. -/
inductive WparseReason where
  | plugin (msg : List Nat)
  | notMatch
  | lineProc (msg : List Nat)
  | uvs (r : UvsReason)
  deriving DecidableEq

/-- `Display` of `WparseReason`, from its `thiserror` format strings:
`"plugin >{0}"`, `"not match"`, `"line proc > {0}"`, `"{0}"`. -/
def WparseReason.render : WparseReason → List Nat
  | .plugin m => rstr "plugin >" ++ m
  | .notMatch => rstr "not match"
  | .lineProc m => rstr "line proc > " ++ m
  | .uvs r => r.render

/-- `impl ErrorCode for WparseReason`: the body ignores the variant and
returns `500`. -/
def WparseReason.errorCode (_ : WparseReason) : Int :=
  500

/-- Modelled from the spec: the generic structured-error container
`StructError<R>` of the external error-composition library — a classification
reason, a free-text detail and an optional chained cause. -/
structure StructError (R : Type) where
  reason : R
  detail : Option (List Nat)
  cause : Option (List Nat)
  deriving DecidableEq

/-- The layer-2 error type `WparseError = StructError<WparseReason>`. -/
abbrev WparseError := StructError WparseReason

/-- Modelled from the spec: `WparseReason::from_data()` (via the external
`UvsFrom` trait) classifies under the generic systemic-fault branch. -/
def WparseReason.fromData : WparseReason :=
  .uvs .dataError

/-- Modelled from the spec: `ToStructError::to_err` wraps a reason into the
container with no detail and no cause attached yet. -/
def toErr (r : WparseReason) : WparseError :=
  ⟨r, none, none⟩

/-- Modelled from the spec: `StructError::with_detail` attaches the free-text
detail. -/
def withDetail (e : WparseError) (d : List Nat) : WparseError :=
  { e with detail := some d }

/-- `impl From<DataErrKind> for WparseError` of `src/error.rs`:
`WparseReason::from_data().to_err().with_detail(format!("{}", value))`. -/
def wparseFromDataErr (k : DataErrKind) : WparseError :=
  withDetail (toErr WparseReason.fromData) k.render

/-- Modelled from the spec: rendering of the structured container — the
classification code, the reason's rendering, then the attached detail and
cause texts. -/
def renderWparseError (e : WparseError) : List Nat :=
  rstr "code " ++ rstr (toString e.reason.errorCode) ++ rstr " : "
    ++ e.reason.render
    ++ (match e.detail with
        | some d => rstr " detail: " ++ d
        | none => [])
    ++ (match e.cause with
        | some c => rstr " cause: " ++ c
        | none => [])

theorem utf8DecodeOne_spec (l : List Nat) (c n : Nat)
    (h : utf8DecodeOne l = some (c, n)) :
    0 < n ∧ utf8EncodeChar c = l.take n := by
  rcases l with _ | ⟨b0, l1⟩
  · simp [utf8DecodeOne] at h
  rcases l1 with _ | ⟨b1, l2⟩ <;> [skip; rcases l2 with _ | ⟨b2, l3⟩] <;>
    [skip; skip; rcases l3 with _ | ⟨b3, l4⟩] <;>
  · simp only [utf8DecodeOne, isCont, cont3, cont4] at h
    split_ifs at h <;>
      simp only [Option.some.injEq, Prod.mk.injEq, reduceCtorEq] at h <;>
    · obtain ⟨hc, hn⟩ := h
      subst hc hn
      refine ⟨by omega, ?_⟩
      simp only [utf8EncodeChar, List.take_succ_cons, List.take_zero]
      split_ifs <;> simp_all [List.cons.injEq] <;> omega

theorem utf8Encode_cons (c : Nat) (cs : List Nat) :
    utf8Encode (c :: cs) = utf8EncodeChar c ++ utf8Encode cs := by
  simp [utf8Encode]

theorem validAux_encode :
    ∀ (fuel : Nat) (l : List Nat), l.length ≤ fuel →
      validAux fuel l = true → utf8Encode (lossyAux fuel l) = l := by
  intro fuel
  induction fuel with
  | zero =>
    intro l hl _
    have hnil : l = [] := by
      cases l with
      | nil => rfl
      | cons a as => simp at hl
    subst hnil
    rfl
  | succ f ih =>
    intro l hl hv
    rcases l with _ | ⟨b0, rest⟩
    · rfl
    · simp only [validAux, lossyAux] at hv ⊢
      cases hd : utf8DecodeOne (b0 :: rest) with
      | none => exact absurd hv (by simp [hd])
      | some cn =>
        obtain ⟨c, n⟩ := cn
        simp only [hd] at hv ⊢
        obtain ⟨hn, henc⟩ := utf8DecodeOne_spec _ _ _ hd
        have hlen : ((b0 :: rest).drop n).length ≤ f := by
          simp only [List.length_drop, List.length_cons] at hl ⊢
          omega
        rw [utf8Encode_cons, ih _ hlen hv, henc, List.take_append_drop]

theorem validAux_replacement :
    ∀ (fuel : Nat) (l : List Nat), l.length ≤ fuel →
      validAux fuel l = false → 0xFFFD ∈ lossyAux fuel l := by
  intro fuel
  induction fuel with
  | zero =>
    intro l hl hv
    cases l with
    | nil => simp [validAux] at hv
    | cons a as => simp at hl
  | succ f ih =>
    intro l hl hv
    rcases l with _ | ⟨b0, rest⟩
    · simp [validAux] at hv
    · simp only [validAux, lossyAux] at hv ⊢
      cases hd : utf8DecodeOne (b0 :: rest) with
      | none =>
        simp only [hd]
        exact List.mem_cons_self _ _
      | some cn =>
        obtain ⟨c, n⟩ := cn
        simp only [hd] at hv ⊢
        obtain ⟨hn, -⟩ := utf8DecodeOne_spec _ _ _ hd
        have hlen : ((b0 :: rest).drop n).length ≤ f := by
          simp only [List.length_drop, List.length_cons] at hl ⊢
          omega
        exact List.mem_cons_of_mem _ (ih _ hlen hv)

/-- C1, the claim as stated is false: `to_bytes` on the `Bytes` variant is
`b.clone()`, which returns a handle to the same allocation — it aliases the
source's internal storage instead of making a fresh copy.  Concretely, with a
`Bytes` buffer backed by allocation 0 and fresh id 1 available, the returned
handle still points at allocation 0. -/
theorem c1_counterexample :
    ¬ (∀ (B : RawData) (fresh : Nat), fresh ≠ B.allocId →
        (B.toBytes fresh).id ≠ B.allocId) :=
  fun h => h (RawData.bytes ⟨0, [1]⟩) 1 (by decide) rfl

/-- C1 (amended): `to_bytes` always returns the same contents as `as_bytes`
and leaves the source unchanged; for the `String` and `ArcBytes` variants the
result lives in a fresh allocation (never aliasing the source), while for the
`Bytes` variant it is a reference-counted clone of the same immutable
allocation (equal handle, no fresh copy). -/
theorem c1_to_bytes_amended (B : RawData) (fresh : Nat)
    (hfresh : fresh ≠ B.allocId) :
    (B.toBytes fresh).data = B.asBytes
    ∧ (∀ s, B = RawData.str s → (B.toBytes fresh).id ≠ B.allocId)
    ∧ (∀ a, B = RawData.arcBytes a → (B.toBytes fresh).id ≠ B.allocId)
    ∧ (∀ b, B = RawData.bytes b → B.toBytes fresh = b) := by
  cases B with
  | str s => exact ⟨rfl, fun _ _ => hfresh, by simp, by simp⟩
  | bytes b =>
    refine ⟨rfl, by simp, by simp, ?_⟩
    intro b' hb
    cases hb
    rfl
  | arcBytes a => exact ⟨rfl, by simp, fun _ _ => hfresh, by simp⟩

/-- Witness for C1's amended theorem at a concrete `String` buffer. -/
theorem c1_amended_witness :
    (5 : Nat) ≠ (RawData.str ⟨0, [104, 105]⟩).allocId
    ∧ ((RawData.str ⟨0, [104, 105]⟩).toBytes 5).data
        = (RawData.str ⟨0, [104, 105]⟩).asBytes
    ∧ ((RawData.str ⟨0, [104, 105]⟩).toBytes 5).id
        ≠ (RawData.str ⟨0, [104, 105]⟩).allocId :=
  ⟨by decide, (c1_to_bytes_amended _ 5 (by decide)).1,
    (c1_to_bytes_amended _ 5 (by decide)).2.1 ⟨0, [104, 105]⟩ rfl⟩

/-- C2: the consuming `into_bytes` avoids copying exactly when the caller is
the sole holder: the returned handle reuses the source allocation iff either
the variant is `String`/`Bytes` (unconditionally copy-avoiding) or it is
`ArcBytes` with strong count exactly 1 at the moment of the call. -/
theorem c2_into_bytes_copy_avoidance (d : RawData) (rc fresh : Nat)
    (hfresh : fresh ≠ d.allocId) :
    ((d.intoBytes rc fresh).id = d.allocId
      ↔ (∀ a, d = RawData.arcBytes a → rc = 1)) := by
  cases d with
  | str s => simp [RawData.intoBytes, RawData.allocId]
  | bytes b => simp [RawData.intoBytes, RawData.allocId]
  | arcBytes a =>
    by_cases h1 : rc = 1
    · simp [RawData.intoBytes, RawData.allocId, h1]
    · simp only [RawData.intoBytes, RawData.allocId, if_neg h1]
      constructor
      · intro h
        exact absurd h hfresh
      · intro h
        exact absurd (h a rfl) h1

/-- Witness for C2 at a concrete shared buffer, once with strong count 1
(allocation reused) and once with strong count 2 (fresh copy). -/
theorem c2_witness :
    ((3 : Nat) ≠ (RawData.arcBytes ⟨0, [1]⟩).allocId
      ∧ (((RawData.arcBytes ⟨0, [1]⟩).intoBytes 1 3).id
            = (RawData.arcBytes ⟨0, [1]⟩).allocId
          ↔ (∀ a, RawData.arcBytes ⟨0, [1]⟩ = RawData.arcBytes a → 1 = 1)))
    ∧ ((3 : Nat) ≠ (RawData.arcBytes ⟨0, [1]⟩).allocId
      ∧ (((RawData.arcBytes ⟨0, [1]⟩).intoBytes 2 3).id
            = (RawData.arcBytes ⟨0, [1]⟩).allocId
          ↔ (∀ a, RawData.arcBytes ⟨0, [1]⟩ = RawData.arcBytes a → 2 = 1))) :=
  ⟨⟨by decide, c2_into_bytes_copy_avoidance _ 1 3 (by decide)⟩,
   ⟨by decide, c2_into_bytes_copy_avoidance _ 2 3 (by decide)⟩⟩

/-- C3: converting any layer-1 kind into the layer-2 wrapper classifies it
under the generic systemic-fault branch (`Uvs`), stores the kind's rendered
message as the wrapper's detail, and the wrapper's rendering contains that
message verbatim as a substring. -/
theorem c3_layer1_to_layer2 (k : DataErrKind) :
    (wparseFromDataErr k).reason = WparseReason.uvs UvsReason.dataError
    ∧ (wparseFromDataErr k).detail = some k.render
    ∧ ∃ p q, renderWparseError (wparseFromDataErr k) = p ++ k.render ++ q := by
  refine ⟨rfl, rfl, ?_⟩
  refine ⟨rstr "code " ++ rstr (toString (WparseReason.errorCode WparseReason.fromData))
    ++ rstr " : " ++ WparseReason.render WparseReason.fromData ++ rstr " detail: ", [], ?_⟩
  simp [renderWparseError, wparseFromDataErr, withDetail, toErr, List.append_assoc]

/-- C4: round-trip identity of the byte view for all three constructors —
`from_string(P).as_bytes()` is the UTF-8 byte sequence of `P`, a buffer built
from an owned byte sequence views exactly those bytes, and
`from_arc_bytes(H).as_bytes()` is the bytes held by `H`. -/
theorem c4_constructor_byte_view :
    (∀ s : StrH, (RawData.fromString s).asBytes = utf8Encode s.chars)
    ∧ (∀ b : BytesH, (RawData.bytes b).asBytes = b.data)
    ∧ (∀ a : ArcH, (RawData.fromArcBytes a).asBytes = a.data) :=
  ⟨fun _ => rfl, fun _ => rfl, fun _ => rfl⟩

/-- C5: `error_code` returns the single fixed value 500 for every variant of
`WparseReason`. -/
theorem c5_error_code_fixed (r : WparseReason) : r.errorCode = 500 :=
  rfl

/-- C6: `is_zero_copy` is true exactly on the `ArcBytes` variant; the ids and
contents (and hence any sharing cardinality) play no role. -/
theorem c6_is_zero_copy_iff (d : RawData) :
    d.isZeroCopy = true ↔ ∃ a, d = RawData.arcBytes a := by
  cases d <;> simp [RawData.isZeroCopy]

/-- C7: for every buffer, `is_empty` holds iff `len` is zero, and `len` is
the length of the `as_bytes` view. -/
theorem c7_len_empty_agreement (d : RawData) :
    (d.isEmpty = true ↔ d.len = 0) ∧ d.len = d.asBytes.length := by
  refine ⟨?_, rfl⟩
  cases d <;>
    simp [RawData.isEmpty, RawData.len, RawData.asBytes, List.isEmpty_iff,
      List.length_eq_zero]

/-- C8: string rendering is a total function; `from_string(s)` renders
exactly `s`; the byte-backed variants render by lossy UTF-8 decoding — a
valid byte sequence decodes so that re-encoding gives back exactly the input,
and every invalid byte sequence is rendered with the replacement marker
U+FFFD appearing in the output. -/
theorem c8_display_total_lossy :
    (∀ s : StrH, (RawData.fromString s).display = s.chars)
    ∧ (∀ l : List Nat, validUtf8 l = true → utf8Encode (lossyCodes l) = l)
    ∧ (∀ l : List Nat, validUtf8 l = false → 0xFFFD ∈ lossyCodes l)
    ∧ (∀ b : BytesH, (RawData.bytes b).display = lossyCodes b.data)
    ∧ (∀ a : ArcH, (RawData.arcBytes a).display = lossyCodes a.data) := by
  refine ⟨fun _ => rfl, ?_, ?_, fun _ => rfl, fun _ => rfl⟩
  · intro l hv
    exact validAux_encode l.length l le_rfl hv
  · intro l hv
    exact validAux_replacement l.length l le_rfl hv

/-- Witness for C8 at a valid input `[104, 105]` (`"hi"`) and the spec's
known-invalid input `[0xFF, 0xFE, 0xFD]`. -/
theorem c8_witness :
    (validUtf8 [104, 105] = true ∧ utf8Encode (lossyCodes [104, 105]) = [104, 105])
    ∧ (validUtf8 [0xFF, 0xFE, 0xFD] = false
        ∧ 0xFFFD ∈ lossyCodes [0xFF, 0xFE, 0xFD]) :=
  ⟨⟨by decide, c8_display_total_lossy.2.1 [104, 105] (by decide)⟩,
   ⟨by decide, c8_display_total_lossy.2.2.1 [0xFF, 0xFE, 0xFD] (by decide)⟩⟩

/-- C9: `from_arc_slice` always succeeds, produces the `ArcBytes` variant
whose byte view equals the input slice, and backs it by a newly created
allocation distinct from the caller's handle (the slice is copied). -/
theorem c9_from_arc_slice (d : ArcSliceH) (fresh : Nat)
    (hfresh : fresh ≠ d.id) :
    RawData.fromArcSlice d fresh = RawData.arcBytes ⟨fresh, d.data⟩
    ∧ (RawData.fromArcSlice d fresh).asBytes = d.data
    ∧ (RawData.fromArcSlice d fresh).isZeroCopy = true
    ∧ (RawData.fromArcSlice d fresh).allocId ≠ d.id :=
  ⟨rfl, rfl, rfl, hfresh⟩

/-- Witness for C9 at a concrete shared slice `[1, 2]`. -/
theorem c9_witness :
    (7 : Nat) ≠ (⟨0, [1, 2]⟩ : ArcSliceH).id
    ∧ (RawData.fromArcSlice ⟨0, [1, 2]⟩ 7).asBytes = [1, 2]
    ∧ (RawData.fromArcSlice ⟨0, [1, 2]⟩ 7).allocId ≠ (⟨0, [1, 2]⟩ : ArcSliceH).id :=
  ⟨by decide, (c9_from_arc_slice _ 7 (by decide)).2.1,
    (c9_from_arc_slice _ 7 (by decide)).2.2.2⟩

/-- C10: the consuming `into_bytes` preserves contents in every variant and
in both the sole-holder and the shared-holder branch: the returned bytes
equal the `as_bytes` view observed just before the call. -/
theorem c10_into_bytes_preserves_contents (d : RawData) (rc fresh : Nat) :
    (d.intoBytes rc fresh).data = d.asBytes := by
  cases d with
  | str s => rfl
  | bytes b => rfl
  | arcBytes a =>
    simp only [RawData.intoBytes, RawData.asBytes]
    split <;> rfl

end WpParse
